import Mathlib

/-!
# Verification of the prebid-server light auction endpoint (`pbs_light.go`)

A shallow embedding of the auction orchestrator, the size-reconciliation
pass, the mobile targeting-key builder, and the cookie-sync endpoint, with
theorems checking the natural-language specification against the code.

Modelling conventions:
* Go strings are byte slices; `len` and slicing (used for key truncation)
  are byte based.  We model a Go string as `List Char`, one `Char` per byte,
  so `List.take` is byte slicing and `List.length` is `len`.
* Go `float64` bid prices are modelled as `ℚ`: the claims under study only
  compare prices, and those comparisons agree with the rational order.
* Go maps are modelled as association lists where a later insert is consed
  in front, so lookup (`mapGet`) sees the latest write, matching map
  overwrite semantics.
* Code of the repository that is outside `pbs_light.go` (the `pbs`, cache
  and adapter packages) is modelled from the spec where needed; each such
  definition is marked `Modelled from the spec:`.
-/

namespace Pbs

/-- A Go string viewed as its byte sequence. -/
abbrev Str := List Char

/-- Go map lookup on an association list whose most recent insert is first. -/
def mapGet {α : Type} : List (Str × α) → Str → Option α
  | [], _ => none
  | (k, v) :: m, key => if key = k then some v else mapGet m key

/-- Go map insert: the new binding shadows any previous one for `mapGet`. -/
def mapPut {α : Type} (m : List (Str × α)) (k : Str) (v : α) : List (Str × α) :=
  (k, v) :: m

/-- One acceptable pixel size of an ad unit (`openrtb.Format`, fields W/H). -/
structure AdSize where
  w : Nat
  h : Nat
deriving DecidableEq, Repr

/-- An ad unit as seen by a bidder (`pbs.PBSAdUnit`): slot code, declared
sizes and the bid id handed to the bidder. -/
structure AdUnit where
  code : Str
  sizes : List AdSize
  bidId : Str
deriving DecidableEq, Repr

/-- Modelled from the spec: `pbs.UsersyncInfo`, the opaque usersync redirect
record an adapter exposes (url/type/supportCORS); only its identity matters
to the claims, so it is a single opaque blob. -/
structure UsersyncInfo where
  url : Str
deriving DecidableEq, Repr

/-- A bidder request / bidder status record (`pbs.PBSBidder`): the same
object is the input to the fan-out and the per-bidder diagnostics entry of
the response. -/
structure PBSBidder where
  bidderCode : Str
  adUnits : List AdUnit
  responseTime : Nat
  numBids : Nat
  noCookie : Bool
  noBid : Bool
  error : Str
  usersyncInfo : Option UsersyncInfo
deriving DecidableEq, Repr

/-- A bid returned by an adapter (`pbs.PBSBid`). -/
structure PBSBid where
  bidId : Str
  adUnitCode : Str
  bidderCode : Str
  creativeMediaType : Str
  price : ℚ
  adm : Str
  nurl : Str
  width : Nat
  height : Nat
  cacheId : Str
  responseTime : Nat
  adServerTargeting : List (Str × Str)
deriving DecidableEq, Repr

/-- Account settings resolved from the data cache. -/
structure Account where
  accountId : Str
  priceGranularity : Str
deriving DecidableEq, Repr

/-- Modelled from the spec: the parsed inbound user-sync cookie
(`pbs.PBSCookie`), reduced to the four capabilities the handlers use. -/
structure PBSCookie where
  allowSyncs : Bool
  liveSyncCount : Nat
  hasLiveSync : Str → Bool
  getUID : Str → Str

/-- A Go error as classified by the per-bidder task. -/
inductive GoError where
  | deadlineExceeded
  | canceled
  | other (msg : Str)
deriving DecidableEq, Repr

/-- The string `err.Error()` of each modelled error. -/
def GoError.errorMessage : GoError → Str
  | .deadlineExceeded => "context deadline exceeded".toList
  | .canceled => "context canceled".toList
  | .other msg => msg

instance exceptDecEq {ε α : Type} [DecidableEq ε] [DecidableEq α] :
    DecidableEq (Except ε α) := fun a b =>
  match a, b with
  | .error e, .error f =>
    if h : e = f then .isTrue (congrArg Except.error h)
    else .isFalse (fun hc => h (Except.error.inj hc))
  | .ok x, .ok y =>
    if h : x = y then .isTrue (congrArg Except.ok h)
    else .isFalse (fun hc => h (Except.ok.inj hc))
  | .error _, .ok _ => .isFalse (fun hc => Except.noConfusion hc)
  | .ok _, .error _ => .isFalse (fun hc => Except.noConfusion hc)

/-- Modelled from the spec: a bidder adapter, "a remote demand source with a
`call`, a `familyName`, a `usersyncInfo`, and a `skipNoCookies` policy".
`call` is this request's (deterministic) outcome: an error, `nil`
(no bid list) or a bid list; `elapsedMs` is the measured call duration. -/
structure Adapter where
  familyName : Str
  usersyncInfo : UsersyncInfo
  skipNoCookies : Bool
  call : Except GoError (Option (List PBSBid))
  elapsedMs : Nat
deriving DecidableEq

/-- The parsed auction request (`pbs.PBSRequest`), reduced to the fields the
`/auction` handler reads after parsing. `app` is whether an app context is
present. -/
structure PBSRequest where
  tid : Str
  accountId : Str
  app : Bool
  adUnits : List AdUnit
  bidders : List PBSBidder
  cacheMarkup : Nat
  sortBids : Nat
  maxKeyLength : Nat

/-- The auction response (`pbs.PBSResponse`), reduced to the fields under
study. -/
structure PBSResponse where
  status : Str
  tid : Str
  bidderStatus : List PBSBidder
  bids : List PBSBid
deriving DecidableEq, Repr

/-- The creative media type `"banner"` checked by size reconciliation. -/
def bannerMediaType : Str := "banner".toList

/--
Function `checkForValidBidSize` (pbs_light.go:338-362): walks the bid list; a banner
bid with an undefined dimension is resolved against the first ad unit of the
bidder matching both `BidID` and `AdUnitCode` — kept with both dimensions
set from the unit's single declared size when exactly one size is declared,
dropped otherwise (several sizes, zero sizes, or no matching unit); every
other bid is kept unchanged.  The Go loop compacts the kept bids into a
preallocated slice through a counter; the fold's accumulator plays the role
of that slice.
-/
def checkForValidBidSize (bids : List PBSBid) (bidder : PBSBidder) : List PBSBid :=
  bids.foldl (fun acc bid =>
    if bid.creativeMediaType = bannerMediaType ∧ (bid.height = 0 ∨ bid.width = 0) then
      match bidder.adUnits.find? (fun u => u.bidId == bid.bidId && u.code == bid.adUnitCode) with
      | some adunit =>
        match adunit.sizes with
        | [s] => acc ++ [{ bid with width := s.w, height := s.h }]
        | _ => acc
      | none => acc
    else acc ++ [bid]) []

/-! ## Targeting-key builder (`sortBidsAddKeywordsMobile`) -/

/-- Default price granularity `"med"` (pbs_light.go:54). -/
def defaultPriceGranularity : Str := "med".toList

/-- Key `hb_pb` (pbs_light.go:57), written out as its byte sequence. -/
def hbpbConstantKey : Str := ['h', 'b', '_', 'p', 'b']

/-- Key `hb_creative_loadtype` (pbs_light.go:58). -/
def hbCreativeLoadMethodConstantKey : Str :=
  ['h', 'b', '_', 'c', 'r', 'e', 'a', 't', 'i', 'v', 'e', '_',
   'l', 'o', 'a', 'd', 't', 'y', 'p', 'e']

/-- Key `hb_bidder` (pbs_light.go:59). -/
def hbBidderConstantKey : Str := ['h', 'b', '_', 'b', 'i', 'd', 'd', 'e', 'r']

/-- Key `hb_cache_id` (pbs_light.go:60). -/
def hbCacheIdConstantKey : Str :=
  ['h', 'b', '_', 'c', 'a', 'c', 'h', 'e', '_', 'i', 'd']

/-- Key `hb_size` (pbs_light.go:61). -/
def hbSizeConstantKey : Str := ['h', 'b', '_', 's', 'i', 'z', 'e']

/-- Value `html` (pbs_light.go:66). -/
def hbCreativeLoadMethodHTML : Str := "html".toList

/-- Value `demand_sdk` (pbs_light.go:67). -/
def hbCreativeLoadMethodDemandSDK : Str := "demand_sdk".toList

/-- The bidder code compared at pbs_light.go:428. -/
def audienceNetworkCode : Str := "audienceNetwork".toList

/-- Decimal formatting `strconv.FormatUint(n, 10)` as a byte string. -/
def natToStr (n : Nat) : Str := (Nat.repr n).toList

/-- Modelled from the spec: one rounding rule of `pbs.GetPriceBucketString`
(not under `src/`): cap the CPM at the row's maximum, round it down to a
multiple of the row's increment.  Maximum and increment are given in cents
and the arithmetic runs on the rational's numerator and denominator, so the
result is the bucket floor in cents. -/
def priceBucket (maxCents incCents : Int) (cpm : ℚ) : Int :=
  if maxCents * (cpm.den : Int) < cpm.num * 100 then maxCents
  else incCents * ((cpm.num * 100).fdiv ((cpm.den : Int) * incCents))

/-- Format a bucket floor given in cents with two decimals, as `"%.2f"`
does for these values. -/
def formatCents (n : Int) : Str :=
  let frac : Nat := (n % 100).toNat
  natToStr (n / 100).toNat ++ '.' ::
    (if frac < 10 then '0' :: natToStr frac else natToStr frac)

/-- Comparison `cpm ≤ bound` (bound in whole dollars) on the rational's
numerator and denominator. -/
def cpmLe (cpm : ℚ) (bound : Int) : Bool :=
  cpm.num ≤ bound * (cpm.den : Int)

/-- Modelled from the spec: `pbs.GetPriceBucketString` (not under `src/`)
returns, for one CPM, the bucketed string under every price-granularity
setting, as a granularity-keyed map built from a table of
(maxPrice, increment) rows — low: (5, 0.50); med: (20, 0.10);
high: (20, 0.01); auto and dense pick the row by the CPM. -/
def getPriceBucketString (cpm : ℚ) : List (Str × Str) :=
  let auto :=
    if cpmLe cpm 5 then priceBucket 2000 5 cpm
    else if cpmLe cpm 10 then priceBucket 2000 10 cpm
    else priceBucket 2000 50 cpm
  let dense :=
    if cpmLe cpm 3 then priceBucket 2000 1 cpm
    else if cpmLe cpm 8 then priceBucket 2000 5 cpm
    else priceBucket 2000 50 cpm
  [("low".toList, formatCents (priceBucket 500 50 cpm)),
   ("med".toList, formatCents (priceBucket 2000 10 cpm)),
   ("high".toList, formatCents (priceBucket 2000 1 cpm)),
   ("auto".toList, formatCents auto),
   ("dense".toList, formatCents dense)]

/-- The `roundedCpm` value read at pbs_light.go:392-393: the bucket map
entry for the granularity setting, `""` when the setting is unknown (Go map
zero value). -/
def roundedCpm (price : ℚ) (pgs : Str) : Str :=
  (mapGet (getPriceBucketString price) pgs).getD []

/-- The `hbSize` value of pbs_light.go:395-400: `"<w>x<h>"` when both
dimensions are non-zero, `""` otherwise. -/
def sizeStringOf (bid : PBSBid) : Str :=
  natToStr bid.width ++ 'x' :: natToStr bid.height

/--
The `pbs_kvs` map built for one bid (pbs_light.go:395-433).  `top` is
`i == 0`, the bid being first of its sorted ad-unit group.  When
`maxKeyLength != 0`, each of the four bidder-suffixed key names is byte
truncated to `min(len(key), maxKeyLength)` (pbs_light.go:406-411); the
unsuffixed keys added for the top bid are inserted as written in the source,
without truncation (pbs_light.go:420-433).
-/
def pbs_kvs (maxKeyLength : Nat) (top : Bool) (bid : PBSBid) (cpm : Str) :
    List (Str × Str) :=
  let hbSize : Str :=
    if bid.width ≠ 0 ∧ bid.height ≠ 0 then sizeStringOf bid else []
  let hbPbBidderKey := hbpbConstantKey ++ '_' :: bid.bidderCode
  let hbBidderBidderKey := hbBidderConstantKey ++ '_' :: bid.bidderCode
  let hbCacheIdBidderKey := hbCacheIdConstantKey ++ '_' :: bid.bidderCode
  let hbSizeBidderKey := hbSizeConstantKey ++ '_' :: bid.bidderCode
  let hbPbBidderKey :=
    if maxKeyLength ≠ 0 then
      hbPbBidderKey.take (min hbPbBidderKey.length maxKeyLength)
    else hbPbBidderKey
  let hbBidderBidderKey :=
    if maxKeyLength ≠ 0 then
      hbBidderBidderKey.take (min hbBidderBidderKey.length maxKeyLength)
    else hbBidderBidderKey
  let hbCacheIdBidderKey :=
    if maxKeyLength ≠ 0 then
      hbCacheIdBidderKey.take (min hbCacheIdBidderKey.length maxKeyLength)
    else hbCacheIdBidderKey
  let hbSizeBidderKey :=
    if maxKeyLength ≠ 0 then
      hbSizeBidderKey.take (min hbSizeBidderKey.length maxKeyLength)
    else hbSizeBidderKey
  let m := mapPut (mapPut (mapPut [] hbPbBidderKey cpm)
    hbBidderBidderKey bid.bidderCode) hbCacheIdBidderKey bid.cacheId
  let m := if hbSize ≠ [] then mapPut m hbSizeBidderKey hbSize else m
  if top then
    let m := mapPut m hbpbConstantKey cpm
    let m := mapPut m hbBidderConstantKey bid.bidderCode
    let m := mapPut m hbCacheIdConstantKey bid.cacheId
    let m := if hbSize ≠ [] then mapPut m hbSizeConstantKey hbSize else m
    if bid.bidderCode = audienceNetworkCode then
      mapPut m hbCreativeLoadMethodConstantKey hbCreativeLoadMethodDemandSDK
    else
      mapPut m hbCreativeLoadMethodConstantKey hbCreativeLoadMethodHTML
  else m

/-- Attach the keyword map of pbs_light.go:434 to a bid. -/
def setBidKeywords (maxKeyLength : Nat) (top : Bool) (pgs : Str) (bid : PBSBid) :
    PBSBid :=
  { bid with adServerTargeting := pbs_kvs maxKeyLength top bid (roundedCpm bid.price pgs) }

/-- The granularity actually used: the account setting, defaulted to `med`
when empty (pbs_light.go:368-370). -/
def effGranularity (pg : Str) : Str :=
  if pg = [] then defaultPriceGranularity else pg

/-- The `code_bids` group of one ad-unit code (pbs_light.go:373-376), each
bid tagged with its position in the aggregate bid list (Go: the shared
pointer identifying the bid object). -/
def groupOf (bids : List PBSBid) (c : Str) : List (Nat × PBSBid) :=
  bids.enum.filter (fun pb => pb.2.adUnitCode == c)

/-- Modelled from the spec: the order `sort.Sort(bar)` (pbs_light.go:388)
imposes through `pbs.PBSBidSlice`'s comparator (not under `src/`):
"descending price (stable on ties)" — price strictly greater first, and on
equal prices the bid earlier in the aggregate list first. -/
def bidBefore (a b : Nat × PBSBid) : Prop :=
  b.2.price < a.2.price ∨ (a.2.price = b.2.price ∧ a.1 ≤ b.1)

instance : DecidableRel bidBefore := fun a b => by
  unfold bidBefore; infer_instance

instance : IsTotal (Nat × PBSBid) bidBefore where
  total a b := by
    unfold bidBefore
    rcases lt_trichotomy a.2.price b.2.price with h | h | h
    · exact Or.inr (Or.inl h)
    · rcases Nat.le_total a.1 b.1 with h2 | h2
      · exact Or.inl (Or.inr ⟨h, h2⟩)
      · exact Or.inr (Or.inr ⟨h.symm, h2⟩)
    · exact Or.inl (Or.inl h)

instance : IsTrans (Nat × PBSBid) bidBefore where
  trans a b c hab hbc := by
    unfold bidBefore at *
    rcases hab with h1 | ⟨h1, h1'⟩ <;> rcases hbc with h2 | ⟨h2, h2'⟩
    · exact Or.inl (h2.trans h1)
    · exact Or.inl (h2 ▸ h1)
    · exact Or.inl (h1 ▸ h2)
    · exact Or.inr ⟨h1.trans h2, h1'.trans h2'⟩

/-- One ad-unit group, sorted as `sort.Sort(bar)` leaves it. -/
def sortedGroup (bids : List PBSBid) (c : Str) : List (Nat × PBSBid) :=
  List.insertionSort bidBefore (groupOf bids c)

/-- The ad-unit codes of the request, in request order. -/
def unitCodes (req : PBSRequest) : List Str :=
  req.adUnits.map AdUnit.code

/--
Function `sortBidsAddKeywordsMobile` (pbs_light.go:367-437).  The Go function
mutates the bids in place: the flat list and the per-code groups share the
bid objects, so after the loop over the request's ad units the bid at flat
position `p` whose code is the code of some request ad unit carries the
keyword map computed from its index in the sorted group of its code, and
every other bid is untouched.  The embedding returns the flat list after
those mutations, recomputing per position the decoration the bid object
received (the position tag `p` identifies the bid object inside its group).
-/
def sortBidsAddKeywordsMobile (bids : List PBSBid) (req : PBSRequest)
    (priceGranularitySetting : Str) : List PBSBid :=
  let pgs := effGranularity priceGranularitySetting
  bids.enum.map (fun pb =>
    if pb.2.adUnitCode ∈ unitCodes req then
      match (sortedGroup bids pb.2.adUnitCode).enum.find? (fun ie => ie.2.1 == pb.1) with
      | some ie => setBidKeywords req.maxKeyLength (ie.1 == 0) pgs ie.2.2
      | none => pb.2
    else pb.2)

/-! ## Auction orchestrator (`auction`, pbs_light.go:160-331) -/

/-- One object sent to the creative cache (`pbc.BidCache`): adm, nurl,
width, height (pbs_light.go:296-301). -/
structure BidCache where
  adm : Str
  nurl : Str
  width : Nat
  height : Nat
deriving DecidableEq, Repr

/-- The array handed to `pbc.Put`: one cache object per bid, in bid-list
order (pbs_light.go:294-305). -/
def buildCacheObjects (bids : List PBSBid) : List BidCache :=
  bids.map (fun bid => { adm := bid.adm, nurl := bid.nurl, width := bid.width, height := bid.height })

/-- On a successful `pbc.Put`, bid `i` gets the uuid filled into cache
object `i`, and its adm and nurl are cleared (pbs_light.go:312-316). -/
def applyCacheIds (bids : List PBSBid) (uuids : List Str) : List PBSBid :=
  List.zipWith (fun bid uuid => { bid with cacheId := uuid, nurl := [], adm := [] }) bids uuids

/-- The cache-markup block (pbs_light.go:293-317), parametrized by the
outcome of `pbc.Put` (modelled from the spec: the client, not under `src/`,
fills one opaque uuid per cache object or fails the whole call).  On
failure the handler answers through `writeAuctionError(w, "Prebid cache
failed", err)`, whose body status is `"Prebid cache failed: <err>"`
(pbs_light.go:76-89, 306-311). -/
def runCacheMarkup (put : List BidCache → Except Str (List Str))
    (bids : List PBSBid) : Except Str (List PBSBid) :=
  match put (buildCacheObjects bids) with
  | .error e => .error ("Prebid cache failed: ".toList ++ e)
  | .ok uuids => .ok (applyCacheIds bids uuids)

/-- What one `BidderRequest` contributes to the auction: its final status
record, whether it was dispatched (counted in `sentBids`), and the bid list
its result delivered on the channel (`none` both when nothing was
dispatched and when the call produced no list). -/
structure BidderOutcome where
  bidder : PBSBidder
  dispatched : Bool
  bidList : Option (List PBSBid)
deriving DecidableEq, Repr

/--
The admission and per-bidder task logic of the fan-out loop
(pbs_light.go:218-284) for one `BidderRequest`: unsupported bidder codes
are marked and never dispatched; with no app context and no uid for the
adapter's family the bidder is marked `noCookie` with the adapter's
usersync info, and skipped entirely when the adapter asks to skip no-cookie
requests; a dispatched call ends in a timeout mark, an error mark, a
size-reconciled bid list, or a no-bid mark.  The goroutine body is
deterministic given the adapter's recorded outcome, so the concurrent task
is modelled as a function of it.
-/
def processBidder (exchanges : List (Str × Adapter)) (hasApp : Bool)
    (cookie : PBSCookie) (bidder : PBSBidder) : BidderOutcome :=
  match mapGet exchanges bidder.bidderCode with
  | none => { bidder := { bidder with error := "Unsupported bidder".toList },
              dispatched := false, bidList := none }
  | some ex =>
    let noUid := hasApp = false ∧ cookie.getUID ex.familyName = []
    let bidder1 :=
      if noUid then
        { bidder with noCookie := true, usersyncInfo := some ex.usersyncInfo }
      else bidder
    if noUid ∧ ex.skipNoCookies then
      { bidder := bidder1, dispatched := false, bidList := none }
    else
      let bidder2 := { bidder1 with responseTime := ex.elapsedMs }
      match ex.call with
      | .error .deadlineExceeded =>
        { bidder := { bidder2 with error := "Timed out".toList },
          dispatched := true, bidList := none }
      | .error e =>
        { bidder := { bidder2 with error := e.errorMessage },
          dispatched := true, bidList := none }
      | .ok (some l) =>
        let l1 := checkForValidBidSize l bidder2
        { bidder := { bidder2 with numBids := l1.length },
          dispatched := true,
          bidList := some (l1.map (fun bid => { bid with responseTime := bidder2.responseTime })) }
      | .ok none =>
        { bidder := { bidder2 with noBid := true },
          dispatched := true, bidList := none }

/-- Concatenation of the drained bid lists (pbs_light.go:286-292).  The Go
arrival order on the channel is nondeterministic; the claims under study
never depend on the flat order, and the embedding drains in input order. -/
def aggregateBids (outs : List BidderOutcome) : List PBSBid :=
  outs.foldl (fun acc o => match o.bidList with | some l => acc ++ l | none => acc) []

/-- The observable outcome of one `/auction` request: the JSON body written,
the number of `ErrorMeter.Mark(1)` calls, and `sentBids`. -/
structure HandlerOutcome where
  response : PBSResponse
  errorMeterDelta : Nat
  sentBids : Nat
deriving DecidableEq, Repr

/--
The `/auction` handler after a successful request parse
(pbs_light.go:183-331): status computation, account resolution (an unknown
account answers `writeAuctionError(w, "Unknown account id",
fmt.Errorf("Unknown account"))` — body status `"Unknown account id: Unknown
account"` — marks the error meter once and stops before any fan-out),
fan-out and aggregation, the optional cache-markup block, and the optional
targeting-key pass.  `accounts` is the data-cache lookup and `put` the
creative-cache client, both request-deterministic oracles.
-/
def auctionCore (exchanges : List (Str × Adapter))
    (accounts : Str → Except Str Account)
    (put : List BidCache → Except Str (List Str))
    (req : PBSRequest) (cookie : PBSCookie) : HandlerOutcome :=
  let status : Str :=
    if req.app then "OK".toList
    else if cookie.liveSyncCount = 0 then "no_cookie".toList
    else "OK".toList
  match accounts req.accountId with
  | .error _ =>
    { response := { status := "Unknown account id: Unknown account".toList,
                    tid := [], bidderStatus := [], bids := [] },
      errorMeterDelta := 1, sentBids := 0 }
  | .ok account =>
    let outs := req.bidders.map (processBidder exchanges req.app cookie)
    let sent := (outs.filter (fun o => o.dispatched)).length
    let bids := aggregateBids outs
    match (if req.cacheMarkup = 1 then runCacheMarkup put bids else .ok bids : Except Str (List PBSBid)) with
    | .error s =>
      { response := { status := s, tid := [], bidderStatus := [], bids := [] },
        errorMeterDelta := 1, sentBids := sent }
    | .ok bids1 =>
      let bids2 :=
        if req.sortBids = 1 then
          sortBidsAddKeywordsMobile bids1 req account.priceGranularity
        else bids1
      { response := { status := status, tid := req.tid,
                      bidderStatus := outs.map (fun o => o.bidder), bids := bids2 },
        errorMeterDelta := 0, sentBids := sent }

/-! ## Cookie-sync endpoint (`cookieSync`, pbs_light.go:106-154) -/

/-- The decoded `/cookie_sync` request body. -/
structure CookieSyncRequest where
  uuid : Str
  bidders : List Str
deriving DecidableEq, Repr

/-- The `/cookie_sync` response body. -/
structure CookieSyncResponse where
  uuid : Str
  status : Str
  bidderStatus : List PBSBidder
deriving DecidableEq, Repr

/-- The `pbs.PBSBidder` literal of pbs_light.go:140-144: only bidder code,
`NoCookie` and the usersync info are set, everything else is zero. -/
def cookieSyncBidder (bidderCode : Str) (ex : Adapter) : PBSBidder :=
  { bidderCode := bidderCode, adUnits := [], responseTime := 0, numBids := 0,
    noCookie := true, noBid := false, error := [],
    usersyncInfo := some ex.usersyncInfo }

/-- The response construction of pbs_light.go:126-148: status from the live
sync count, then one loop over the requested bidders appending a status for
every registered bidder lacking a live sync for its adapter's family. -/
def cookieSyncCore (exchanges : List (Str × Adapter)) (cookie : PBSCookie)
    (csReq : CookieSyncRequest) : CookieSyncResponse :=
  let status : Str :=
    if cookie.liveSyncCount = 0 then "no_cookie".toList else "ok".toList
  let bidderStatus := csReq.bidders.foldl (fun acc bidder =>
    match mapGet exchanges bidder with
    | some ex =>
      if cookie.hasLiveSync ex.familyName then acc
      else acc ++ [cookieSyncBidder bidder ex]
    | none => acc) []
  { uuid := csReq.uuid, status := status, bidderStatus := bidderStatus }

/-- The three ways the `/cookie_sync` handler answers. -/
inductive CookieSyncHttpResult where
  | unauthorized (body : Str)
  | badRequest (body : Str)
  | ok (resp : CookieSyncResponse)
deriving DecidableEq, Repr

/-- The `/cookie_sync` handler (pbs_light.go:106-154): the opt-out check on
the inbound cookie runs before the body is decoded, so `body` — the outcome
the JSON decoder would produce — is only consulted afterwards. -/
def cookieSyncHandler (exchanges : List (Str × Adapter)) (cookie : PBSCookie)
    (body : Except Str CookieSyncRequest) : CookieSyncHttpResult :=
  if cookie.allowSyncs = false then
    .unauthorized "User has opted out".toList
  else
    match body with
    | .error _ => .badRequest "JSON parse failed".toList
    | .ok csReq => .ok (cookieSyncCore exchanges cookie csReq)

/-! ## Statement vocabulary and concrete sample inputs -/

/-- The bidder-suffixed targeting entries the spec promises every bid: the
bucketed price, the bidder code, the cache id, and — exactly when both
dimensions are non-zero — the size string. -/
def suffixedKeysOk (b : PBSBid) (cpm : Str) (t : List (Str × Str)) : Prop :=
  mapGet t (hbpbConstantKey ++ '_' :: b.bidderCode) = some cpm ∧
  mapGet t (hbBidderConstantKey ++ '_' :: b.bidderCode) = some b.bidderCode ∧
  mapGet t (hbCacheIdConstantKey ++ '_' :: b.bidderCode) = some b.cacheId ∧
  (b.width ≠ 0 ∧ b.height ≠ 0 →
    mapGet t (hbSizeConstantKey ++ '_' :: b.bidderCode) = some (sizeStringOf b)) ∧
  (¬(b.width ≠ 0 ∧ b.height ≠ 0) →
    mapGet t (hbSizeConstantKey ++ '_' :: b.bidderCode) = none)

/-- The unsuffixed targeting entries the spec promises the top bid of an ad
unit, `hb_creative_loadtype` included. -/
def topKeysOk (b : PBSBid) (cpm : Str) (t : List (Str × Str)) : Prop :=
  mapGet t hbpbConstantKey = some cpm ∧
  mapGet t hbBidderConstantKey = some b.bidderCode ∧
  mapGet t hbCacheIdConstantKey = some b.cacheId ∧
  (b.width ≠ 0 ∧ b.height ≠ 0 → mapGet t hbSizeConstantKey = some (sizeStringOf b)) ∧
  (¬(b.width ≠ 0 ∧ b.height ≠ 0) → mapGet t hbSizeConstantKey = none) ∧
  mapGet t hbCreativeLoadMethodConstantKey =
    some (if b.bidderCode = audienceNetworkCode then hbCreativeLoadMethodDemandSDK
          else hbCreativeLoadMethodHTML)

/-- Sample ad unit `u1`, one declared size. -/
def sampleUnit : AdUnit :=
  { code := "u1".toList, sizes := [{ w := 300, h := 250 }], bidId := "b1".toList }

/-- Sample banner bid whose ad-unit code `x` matches no request ad unit. -/
def sampleBidUnmatched : PBSBid :=
  { bidId := "b1".toList, adUnitCode := "x".toList, bidderCode := "a".toList,
    creativeMediaType := bannerMediaType, price := 1, adm := "ad".toList,
    nurl := "nu".toList, width := 300, height := 250, cacheId := "c1".toList,
    responseTime := 0, adServerTargeting := [] }

/-- Sample banner bid on the request's ad unit `u1`. -/
def sampleBidMatched : PBSBid :=
  { sampleBidUnmatched with adUnitCode := "u1".toList }

/-- Sample request, no truncation (`maxKeyLength = 0`). -/
def sampleReq0 : PBSRequest :=
  { tid := "t1".toList, accountId := "acct".toList, app := false,
    adUnits := [sampleUnit], bidders := [], cacheMarkup := 0, sortBids := 1,
    maxKeyLength := 0 }

/-- Sample request with byte truncation of key names to 3 bytes. -/
def sampleReq3 : PBSRequest :=
  { sampleReq0 with maxKeyLength := 3 }

/-- The decorated top bid of `sampleBidMatched` under `sampleReq3`. -/
def sampleTruncatedBid : PBSBid :=
  setBidKeywords 3 true (effGranularity []) sampleBidMatched

/-- Sample usersync record. -/
def sampleSync : UsersyncInfo := { url := "//sync".toList }

/-- Sample adapter that answers with one bid. -/
def sampleAdapterOk : Adapter :=
  { familyName := "adnxs".toList, usersyncInfo := sampleSync,
    skipNoCookies := false, call := .ok (some [sampleBidMatched]), elapsedMs := 7 }

/-- Sample adapter that skips no-cookie requests. -/
def sampleAdapterSkip : Adapter :=
  { familyName := "fam2".toList, usersyncInfo := sampleSync,
    skipNoCookies := true, call := .ok none, elapsedMs := 3 }

/-- Sample adapter whose call times out. -/
def sampleAdapterTimeout : Adapter :=
  { familyName := "fam3".toList, usersyncInfo := sampleSync,
    skipNoCookies := false, call := .error .deadlineExceeded, elapsedMs := 200 }

/-- Sample adapter registry. -/
def sampleExchanges : List (Str × Adapter) :=
  [("appnexus".toList, sampleAdapterOk),
   ("skipper".toList, sampleAdapterSkip),
   ("slowpoke".toList, sampleAdapterTimeout)]

/-- Sample cookie: syncs allowed, no live syncs, no uids. -/
def sampleCookie : PBSCookie :=
  { allowSyncs := true, liveSyncCount := 0,
    hasLiveSync := fun _ => false, getUID := fun _ => [] }

/-- Sample opted-out cookie. -/
def sampleOptOutCookie : PBSCookie :=
  { sampleCookie with allowSyncs := false }

/-- Sample bidder requests: one unsupported, one answering, one skipped. -/
def sampleBidders : List PBSBidder :=
  [{ bidderCode := "nosuch".toList, adUnits := [sampleUnit], responseTime := 0,
     numBids := 0, noCookie := false, noBid := false, error := [], usersyncInfo := none },
   { bidderCode := "appnexus".toList, adUnits := [sampleUnit], responseTime := 0,
     numBids := 0, noCookie := false, noBid := false, error := [], usersyncInfo := none },
   { bidderCode := "skipper".toList, adUnits := [sampleUnit], responseTime := 0,
     numBids := 0, noCookie := false, noBid := false, error := [], usersyncInfo := none }]

/-- Sample auction request with `cacheMarkup = 1`. -/
def sampleAuctionReq : PBSRequest :=
  { tid := "t1".toList, accountId := "acct".toList, app := false,
    adUnits := [sampleUnit], bidders := sampleBidders, cacheMarkup := 1,
    sortBids := 0, maxKeyLength := 0 }

/-- Sample account cache with one known account. -/
def sampleAccounts : Str → Except Str Account := fun id =>
  if id = "acct".toList then .ok { accountId := "acct".toList, priceGranularity := [] }
  else .error "Not found".toList

/-- Account cache where every id misses. -/
def sampleAccountsEmpty : Str → Except Str Account :=
  fun _ => .error "Not found".toList

/-- Sample creative cache that hands out one fixed uuid per object. -/
def samplePut : List BidCache → Except Str (List Str) := fun objs =>
  .ok (objs.map (fun _ => "uuid-1".toList))

/-- Sample creative cache that always fails. -/
def samplePutFail : List BidCache → Except Str (List Str) :=
  fun _ => .error "broken".toList

/-! ## Theorems -/

/-- The per-bid reconciliation decision, as a `filterMap` body: what the
compacting loop of `checkForValidBidSize` does to one bid. -/
def reconcileBid (bidder : PBSBidder) (bid : PBSBid) : Option PBSBid :=
  if bid.creativeMediaType = bannerMediaType ∧ (bid.height = 0 ∨ bid.width = 0) then
    match bidder.adUnits.find? (fun u => u.bidId == bid.bidId && u.code == bid.adUnitCode) with
    | some adunit =>
      match adunit.sizes with
      | [s] => some { bid with width := s.w, height := s.h }
      | _ => none
    | none => none
  else some bid

theorem checkForValidBidSize_eq_filterMap (bids : List PBSBid) (bidder : PBSBidder) :
    checkForValidBidSize bids bidder = bids.filterMap (reconcileBid bidder) := by
  suffices h : ∀ (l : List PBSBid) (acc : List PBSBid),
      l.foldl (fun acc bid =>
        if bid.creativeMediaType = bannerMediaType ∧ (bid.height = 0 ∨ bid.width = 0) then
          match bidder.adUnits.find? (fun u => u.bidId == bid.bidId && u.code == bid.adUnitCode) with
          | some adunit =>
            match adunit.sizes with
            | [s] => acc ++ [{ bid with width := s.w, height := s.h }]
            | _ => acc
          | none => acc
        else acc ++ [bid]) acc = acc ++ l.filterMap (reconcileBid bidder) by
    simpa [checkForValidBidSize] using h bids []
  intro l
  induction l with
  | nil => intro acc; simp
  | cons bid rest ih =>
    intro acc
    simp only [List.foldl_cons, List.filterMap_cons, reconcileBid]
    by_cases hc : bid.creativeMediaType = bannerMediaType ∧ (bid.height = 0 ∨ bid.width = 0)
    · rw [if_pos hc, if_pos hc]
      cases hf : bidder.adUnits.find? (fun u => u.bidId == bid.bidId && u.code == bid.adUnitCode) with
      | none => rw [ih]
      | some adunit =>
        cases hs : adunit.sizes with
        | nil => rw [ih]; simp [hs]
        | cons s tail =>
          cases tail with
          | nil => rw [ih]; simp [hs]
          | cons s2 t2 => rw [ih]; simp [hs]
    · rw [if_neg hc, if_neg hc, ih]; simp

/--
Claim C1 — size reconciliation.  `checkForValidBidSize` is, bid for bid,
the compaction (in input order) of: a banner bid with `width == 0` or
`height == 0` whose first ad unit matching both `bidId` and `adUnitCode`
declares exactly one size is kept with both dimensions set from that size;
such a bid is dropped when the matching unit declares any other number of
sizes and when no unit matches; every other bid — non-banner, or banner
with both dimensions set — passes through unchanged.
-/
theorem checkForValidBidSize_filterMap (bids : List PBSBid) (bidder : PBSBidder) :
    checkForValidBidSize bids bidder = bids.filterMap (fun bid =>
      if bid.creativeMediaType = bannerMediaType ∧ (bid.height = 0 ∨ bid.width = 0) then
        match bidder.adUnits.find? (fun u => u.bidId == bid.bidId && u.code == bid.adUnitCode) with
        | some adunit =>
          match adunit.sizes with
          | [s] => some { bid with width := s.w, height := s.h }
          | _ => none
        | none => none
      else some bid) :=
  checkForValidBidSize_eq_filterMap bids bidder

/--
Claim C9 — size reconciliation is the identity, hence idempotent, on bid
lists in which every bid is non-banner or has both dimensions positive.
-/
theorem checkForValidBidSize_idem (bids : List PBSBid) (bidder : PBSBidder)
    (h : ∀ b ∈ bids, b.creativeMediaType ≠ bannerMediaType ∨ (0 < b.width ∧ 0 < b.height)) :
    checkForValidBidSize bids bidder = bids ∧
      checkForValidBidSize (checkForValidBidSize bids bidder) bidder =
        checkForValidBidSize bids bidder := by
  have h1 : checkForValidBidSize bids bidder = bids := by
    rw [checkForValidBidSize_eq_filterMap]
    induction bids with
    | nil => simp
    | cons bid rest ih =>
      have hb := h bid (List.mem_cons_self bid rest)
      have hcond : ¬(bid.creativeMediaType = bannerMediaType ∧ (bid.height = 0 ∨ bid.width = 0)) := by
        rcases hb with hb | ⟨hw, hh⟩
        · exact fun hc => hb hc.1
        · rintro ⟨-, h0 | h0⟩ <;> omega
      rw [List.filterMap_cons]
      simp only [reconcileBid, if_neg hcond]
      rw [ih (fun b hb' => h b (List.mem_cons_of_mem bid hb'))]
  exact ⟨h1, by rw [h1]; exact h1⟩

/-- Witness for claim C9 at a concrete list and bidder. -/
theorem checkForValidBidSize_idem_witness :
    (∀ b ∈ [sampleBidMatched],
      b.creativeMediaType ≠ bannerMediaType ∨ (0 < b.width ∧ 0 < b.height)) ∧
    (checkForValidBidSize [sampleBidMatched] (cookieSyncBidder "a".toList sampleAdapterOk)
        = [sampleBidMatched] ∧
      checkForValidBidSize
          (checkForValidBidSize [sampleBidMatched] (cookieSyncBidder "a".toList sampleAdapterOk))
          (cookieSyncBidder "a".toList sampleAdapterOk) =
        checkForValidBidSize [sampleBidMatched] (cookieSyncBidder "a".toList sampleAdapterOk)) :=
  ⟨by decide, checkForValidBidSize_idem _ _ (by decide)⟩

theorem groupOf_map_fst_nodup (bids : List PBSBid) (c : Str) :
    ((groupOf bids c).map Prod.fst).Nodup := by
  have hsub : ((groupOf bids c).map Prod.fst).Sublist (bids.enum.map Prod.fst) :=
    (List.filter_sublist _).map _
  rw [List.enum_map_fst] at hsub
  exact hsub.nodup (List.nodup_range _)

theorem sortedGroup_perm (bids : List PBSBid) (c : Str) :
    (sortedGroup bids c).Perm (groupOf bids c) :=
  List.perm_insertionSort bidBefore (groupOf bids c)

theorem sortedGroup_map_fst_nodup (bids : List PBSBid) (c : Str) :
    ((sortedGroup bids c).map Prod.fst).Nodup :=
  ((sortedGroup_perm bids c).map Prod.fst).nodup_iff.mpr (groupOf_map_fst_nodup bids c)

theorem sortedGroup_sorted (bids : List PBSBid) (c : Str) :
    List.Sorted bidBefore (sortedGroup bids c) :=
  List.sorted_insertionSort bidBefore (groupOf bids c)

theorem sortedGroup_pairwise_fst_ne (bids : List PBSBid) (c : Str) :
    (sortedGroup bids c).Pairwise (fun a b => a.1 ≠ b.1) :=
  List.pairwise_map.mp (sortedGroup_map_fst_nodup bids c)

/--
Claim C4 — per-ad-unit sort.  The sorted view of one ad-unit group is a
permutation of the group (whose entries carry their positions in the
aggregate bid list), its prices are non-increasing, and the sort is stable:
two bids of equal price appear in increasing aggregate-list position.
-/
theorem sortedGroup_sorted_stable (bids : List PBSBid) (c : Str) :
    (sortedGroup bids c).Perm (groupOf bids c) ∧
    (sortedGroup bids c).Pairwise (fun a b => b.2.price ≤ a.2.price) ∧
    (sortedGroup bids c).Pairwise (fun a b => a.2.price = b.2.price → a.1 < b.1) := by
  refine ⟨sortedGroup_perm bids c, ?_, ?_⟩
  · exact (sortedGroup_sorted bids c).imp (fun {a b} h => by
      rcases h with h | ⟨h, -⟩
      · exact le_of_lt h
      · exact le_of_eq h.symm)
  · exact ((sortedGroup_sorted bids c).and (sortedGroup_pairwise_fst_ne bids c)).imp
      (fun {a b} h hp => by
        rcases h with ⟨hlt | ⟨-, hle⟩, hne⟩
        · exact absurd hlt (by rw [hp]; exact lt_irrefl _)
        · exact lt_of_le_of_ne hle hne)

theorem mem_groupOf {bids : List PBSBid} {c : Str} {p : Nat} {b : PBSBid} :
    (p, b) ∈ groupOf bids c ↔ bids[p]? = some b ∧ b.adUnitCode = c := by
  simp [groupOf, List.mem_filter, List.mk_mem_enum_iff_getElem?]

theorem mem_sortedGroup {bids : List PBSBid} {c : Str} {p : Nat} {b : PBSBid} :
    (p, b) ∈ sortedGroup bids c ↔ bids[p]? = some b ∧ b.adUnitCode = c :=
  ((sortedGroup_perm bids c).mem_iff).trans mem_groupOf

theorem sortedGroup_getElem?_unique {bids : List PBSBid} {c : Str} {i j p : Nat}
    {b b' : PBSBid} (hi : (sortedGroup bids c)[i]? = some (p, b))
    (hj : (sortedGroup bids c)[j]? = some (p, b')) : i = j ∧ b = b' := by
  obtain ⟨hilt, hie⟩ := List.getElem?_eq_some.mp hi
  obtain ⟨hjlt, hje⟩ := List.getElem?_eq_some.mp hj
  have hnd := sortedGroup_map_fst_nodup bids c
  have hmi : i < ((sortedGroup bids c).map Prod.fst).length := by simpa using hilt
  have hmj : j < ((sortedGroup bids c).map Prod.fst).length := by simpa using hjlt
  have hfst : ((sortedGroup bids c).map Prod.fst)[i] = ((sortedGroup bids c).map Prod.fst)[j] := by
    rw [List.getElem_map, List.getElem_map, hie, hje]
  have hij : i = j := (hnd.getElem_inj_iff).mp hfst
  subst hij
  rw [hie] at hje
  exact ⟨rfl, congrArg Prod.snd hje⟩

theorem sortedGroup_find {bids : List PBSBid} {c : Str} {p i : Nat} {b : PBSBid}
    (hi : (sortedGroup bids c)[i]? = some (p, b)) :
    (sortedGroup bids c).enum.find? (fun ie => ie.2.1 == p) = some (i, (p, b)) := by
  have hmem : (i, (p, b)) ∈ (sortedGroup bids c).enum :=
    List.mk_mem_enum_iff_getElem?.mpr hi
  have hsome : ((sortedGroup bids c).enum.find? (fun ie => ie.2.1 == p)).isSome :=
    List.find?_isSome.mpr ⟨(i, (p, b)), hmem, by simp⟩
  obtain ⟨x, hx⟩ := Option.isSome_iff_exists.mp hsome
  obtain ⟨j, q, b'⟩ := x
  have hq : q = p := by simpa using List.find?_some hx
  subst hq
  have hx2 : (sortedGroup bids c)[j]? = some (q, b') :=
    List.mk_mem_enum_iff_getElem?.mp (List.mem_of_find?_eq_some hx)
  obtain ⟨hji, hbb⟩ := sortedGroup_getElem?_unique hx2 hi
  subst hji
  rw [hbb] at hx
  exact hx

theorem sortBids_getElem? (bids : List PBSBid) (req : PBSRequest) (pg : Str)
    (p : Nat) (b : PBSBid) (hb : bids[p]? = some b) :
    (sortBidsAddKeywordsMobile bids req pg)[p]? = some (
      if b.adUnitCode ∈ unitCodes req then
        match (sortedGroup bids b.adUnitCode).enum.find? (fun ie => ie.2.1 == p) with
        | some ie => setBidKeywords req.maxKeyLength (ie.1 == 0) (effGranularity pg) ie.2.2
        | none => b
      else b) := by
  unfold sortBidsAddKeywordsMobile
  rw [List.getElem?_map, List.getElem?_enum, hb]
  rfl

theorem pbs_kvs_suffixedKeysOk (top : Bool) (bid : PBSBid) (cpm : Str) :
    suffixedKeysOk bid cpm (pbs_kvs 0 top bid cpm) := by
  unfold suffixedKeysOk
  by_cases hw : bid.width ≠ 0 ∧ bid.height ≠ 0 <;>
    cases top <;>
      by_cases ha : bid.bidderCode = audienceNetworkCode <;>
        refine ⟨?_, ?_, ?_, fun hdim => ?_, fun hdim => ?_⟩ <;>
          simp_all [pbs_kvs, mapGet, mapPut, hbpbConstantKey, hbBidderConstantKey,
            hbCacheIdConstantKey, hbSizeConstantKey, hbCreativeLoadMethodConstantKey,
            sizeStringOf]

theorem pbs_kvs_topKeysOk (bid : PBSBid) (cpm : Str) :
    topKeysOk bid cpm (pbs_kvs 0 true bid cpm) := by
  unfold topKeysOk
  by_cases hw : bid.width ≠ 0 ∧ bid.height ≠ 0 <;>
    by_cases ha : bid.bidderCode = audienceNetworkCode <;>
      refine ⟨?_, ?_, ?_, fun hdim => ?_, fun hdim => ?_, ?_⟩ <;>
        simp_all [pbs_kvs, mapGet, mapPut, hbpbConstantKey, hbBidderConstantKey,
          hbCacheIdConstantKey, hbSizeConstantKey, hbCreativeLoadMethodConstantKey,
          sizeStringOf]

/--
Claim C2, amended — targeting keys.  Without truncation
(`maxKeyLength = 0`), every bid of the list whose ad-unit code is the code
of some request ad unit ends up, at its position, decorated with the keyword
map of its index in the sorted view of its ad-unit group: the bidder-suffixed
keys `hb_pb_<bidderCode>` (bucketed price), `hb_bidder_<bidderCode>`,
`hb_cache_id_<bidderCode>` and — exactly when both dimensions are non-zero —
`hb_size_<bidderCode>` with value `<w>x<h>`; the bid at index 0 of its
sorted group additionally carries the unsuffixed keys and
`hb_creative_loadtype` (`demand_sdk` for `audienceNetwork`, else `html`).
The amendment over the claim as frozen: bids whose ad-unit code matches no
request ad unit are not decorated at all, and under truncation
(`maxKeyLength > 0`) the suffixed key names differ (see the
counterexample).
-/
theorem sortBidsAddKeywordsMobile_keys (bids : List PBSBid) (req : PBSRequest)
    (pg : Str) (hmx : req.maxKeyLength = 0) (p : Nat) (b : PBSBid)
    (hb : bids[p]? = some b) (hc : b.adUnitCode ∈ unitCodes req) :
    ∃ i, (sortedGroup bids b.adUnitCode)[i]? = some (p, b) ∧
      (sortBidsAddKeywordsMobile bids req pg)[p]? =
        some (setBidKeywords req.maxKeyLength (i == 0) (effGranularity pg) b) ∧
      suffixedKeysOk b (roundedCpm b.price (effGranularity pg))
        (setBidKeywords req.maxKeyLength (i == 0) (effGranularity pg) b).adServerTargeting ∧
      (i = 0 → topKeysOk b (roundedCpm b.price (effGranularity pg))
        (setBidKeywords req.maxKeyLength (i == 0) (effGranularity pg) b).adServerTargeting) := by
  have hmem : (p, b) ∈ sortedGroup bids b.adUnitCode := mem_sortedGroup.mpr ⟨hb, rfl⟩
  obtain ⟨i, hi⟩ := List.mem_iff_getElem?.mp hmem
  refine ⟨i, hi, ?_, ?_, ?_⟩
  · have hout := sortBids_getElem? bids req pg p b hb
    rw [if_pos hc, sortedGroup_find hi] at hout
    exact hout
  · rw [hmx]
    simpa [setBidKeywords] using
      pbs_kvs_suffixedKeysOk (i == 0) b (roundedCpm b.price (effGranularity pg))
  · intro hi0
    have h0 : (i == 0) = true := by simp [hi0]
    rw [hmx, h0]
    simpa [setBidKeywords] using
      pbs_kvs_topKeysOk b (roundedCpm b.price (effGranularity pg))

/-- Counterexample to claim C2 as frozen: a bid whose ad-unit code matches
no request ad unit gets no `hb_pb_<bidderCode>` entry at all, and with
`maxKeyLength = 3` the suffixed key names are truncated away, so the
promised key is again absent. -/
theorem sortBidsAddKeywordsMobile_keys_counterexample :
    (sortBidsAddKeywordsMobile [sampleBidUnmatched] sampleReq0 []).map
        (fun b => mapGet b.adServerTargeting (hbpbConstantKey ++ '_' :: b.bidderCode)) =
      [none] ∧
    (sortBidsAddKeywordsMobile [sampleBidMatched] sampleReq3 []).map
        (fun b => mapGet b.adServerTargeting (hbpbConstantKey ++ '_' :: b.bidderCode)) =
      [none] := by
  constructor <;> decide

/-- Witness for claim C2 at a concrete one-bid auction. -/
theorem sortBidsAddKeywordsMobile_keys_witness :
    ∃ i, (sortedGroup [sampleBidMatched] sampleBidMatched.adUnitCode)[i]? =
        some (0, sampleBidMatched) ∧
      (sortBidsAddKeywordsMobile [sampleBidMatched] sampleReq0 [])[0]? =
        some (setBidKeywords sampleReq0.maxKeyLength (i == 0) (effGranularity [])
          sampleBidMatched) ∧
      suffixedKeysOk sampleBidMatched
        (roundedCpm sampleBidMatched.price (effGranularity []))
        (setBidKeywords sampleReq0.maxKeyLength (i == 0) (effGranularity [])
          sampleBidMatched).adServerTargeting ∧
      (i = 0 → topKeysOk sampleBidMatched
        (roundedCpm sampleBidMatched.price (effGranularity []))
        (setBidKeywords sampleReq0.maxKeyLength (i == 0) (effGranularity [])
          sampleBidMatched).adServerTargeting) :=
  sortBidsAddKeywordsMobile_keys [sampleBidMatched] sampleReq0 [] rfl 0
    sampleBidMatched rfl (by decide)

theorem sortBids_mem {bids : List PBSBid} {req : PBSRequest} {pg : Str} {b' : PBSBid}
    (hb' : b' ∈ sortBidsAddKeywordsMobile bids req pg) :
    b' ∈ bids ∨ ∃ top b2, b2 ∈ bids ∧
      b' = setBidKeywords req.maxKeyLength top (effGranularity pg) b2 := by
  unfold sortBidsAddKeywordsMobile at hb'
  obtain ⟨pb, hpb, heq⟩ := List.mem_map.mp hb'
  have hpbmem : pb.2 ∈ bids := by
    obtain ⟨p, a⟩ := pb
    exact List.getElem?_mem (List.mk_mem_enum_iff_getElem?.mp hpb)
  by_cases hcode : pb.2.adUnitCode ∈ unitCodes req
  · rw [if_pos hcode] at heq
    cases hfind : (sortedGroup bids pb.2.adUnitCode).enum.find? (fun ie => ie.2.1 == pb.1) with
    | none => rw [hfind] at heq; exact Or.inl (heq ▸ hpbmem)
    | some ie =>
      rw [hfind] at heq
      refine Or.inr ⟨(ie.1 == 0), ie.2.2, ?_, heq.symm⟩
      have hiemem : ie.2 ∈ sortedGroup bids pb.2.adUnitCode := by
        obtain ⟨i, q, b2⟩ := ie
        exact List.getElem?_mem
          (List.mk_mem_enum_iff_getElem?.mp (List.mem_of_find?_eq_some hfind))
      exact List.getElem?_mem (mem_sortedGroup.mp hiemem).1
  · rw [if_neg hcode] at heq
    exact Or.inl (heq ▸ hpbmem)

theorem pbs_kvs_entries (maxKeyLength : Nat) (hmk : maxKeyLength ≠ 0) (top : Bool)
    (bid : PBSBid) (cpm : Str) :
    ∀ kv ∈ pbs_kvs maxKeyLength top bid cpm,
      (kv.1.length ≤ maxKeyLength ∨
        kv.1 ∈ [hbpbConstantKey, hbBidderConstantKey, hbCacheIdConstantKey,
          hbSizeConstantKey, hbCreativeLoadMethodConstantKey]) ∧
      (kv.2 = cpm ∨ kv.2 = bid.bidderCode ∨ kv.2 = bid.cacheId ∨
        kv.2 = sizeStringOf bid ∨ kv.2 = hbCreativeLoadMethodDemandSDK ∨
        kv.2 = hbCreativeLoadMethodHTML) := by
  intro kv hkv
  have hsz : ¬sizeStringOf bid = [] := by simp [sizeStringOf]
  unfold pbs_kvs at hkv
  by_cases hw : bid.width ≠ 0 ∧ bid.height ≠ 0 <;>
    cases top <;>
      by_cases ha : bid.bidderCode = audienceNetworkCode <;>
        simp [hmk, hw, ha, hsz, mapPut] at hkv <;>
        (rcases hkv with rfl | rfl | rfl | rfl | rfl | rfl | rfl | rfl | rfl) <;>
          refine ⟨?_, by simp [ha]⟩ <;>
          first
          | (left; simp only [List.length_take]; omega)
          | (right; simp)

/--
Claim C3, amended — key truncation.  When `maxKeyLength > 0` and the bids
arrive with empty targeting maps (as they do from the adapters), every
entry the targeting builder places satisfies: its key name is byte
truncated to at most `maxKeyLength` bytes **or** is one of the five
unsuffixed constant key names (`hb_pb`, `hb_bidder`, `hb_cache_id`,
`hb_size`, `hb_creative_loadtype`), which the source inserts for the top
bid without truncating; and its value is one of the untruncated source
values (bucketed price, bidder code, cache id, size string, load-type
constant) — values are never truncated.  The amendment over the claim as
frozen: the unsuffixed top-bid keys are not truncated (see the
counterexample); only the four bidder-suffixed keys are.
-/
theorem sortBidsAddKeywordsMobile_keyLength (bids : List PBSBid) (req : PBSRequest)
    (pg : Str) (hmx : req.maxKeyLength ≠ 0)
    (hclean : ∀ b ∈ bids, b.adServerTargeting = []) :
    ∀ b' ∈ sortBidsAddKeywordsMobile bids req pg, ∀ kv ∈ b'.adServerTargeting,
      (kv.1.length ≤ req.maxKeyLength ∨
        kv.1 ∈ [hbpbConstantKey, hbBidderConstantKey, hbCacheIdConstantKey,
          hbSizeConstantKey, hbCreativeLoadMethodConstantKey]) ∧
      (kv.2 = roundedCpm b'.price (effGranularity pg) ∨ kv.2 = b'.bidderCode ∨
        kv.2 = b'.cacheId ∨ kv.2 = sizeStringOf b' ∨
        kv.2 = hbCreativeLoadMethodDemandSDK ∨ kv.2 = hbCreativeLoadMethodHTML) := by
  intro b' hb' kv hkv
  rcases sortBids_mem hb' with hin | ⟨top, b2, hb2, rfl⟩
  · rw [hclean b' hin] at hkv
    exact absurd hkv (List.not_mem_nil kv)
  · have hent := pbs_kvs_entries req.maxKeyLength hmx top b2
      (roundedCpm b2.price (effGranularity pg)) kv
      (by simpa [setBidKeywords] using hkv)
    simpa [setBidKeywords] using hent

/-- Counterexample to claim C3 as frozen: with `maxKeyLength = 3`, the
top-bid key `hb_creative_loadtype` (20 bytes) is still placed untruncated
into the bid's targeting map. -/
theorem sortBidsAddKeywordsMobile_keyLength_counterexample :
    (sortBidsAddKeywordsMobile [sampleBidMatched] sampleReq3 []).map
        (fun b => mapGet b.adServerTargeting hbCreativeLoadMethodConstantKey) =
      [some hbCreativeLoadMethodHTML] ∧
    hbCreativeLoadMethodConstantKey.length = 20 ∧
    sampleReq3.maxKeyLength = 3 ∧ ¬(20 ≤ 3) := by
  refine ⟨by decide, by decide, by decide, by decide⟩

/-- Witness for claim C3 at a concrete truncated auction. -/
theorem sortBidsAddKeywordsMobile_keyLength_witness :
    ((hbCreativeLoadMethodConstantKey, hbCreativeLoadMethodHTML).1.length ≤
        sampleReq3.maxKeyLength ∨
      (hbCreativeLoadMethodConstantKey, hbCreativeLoadMethodHTML).1 ∈
        [hbpbConstantKey, hbBidderConstantKey, hbCacheIdConstantKey,
          hbSizeConstantKey, hbCreativeLoadMethodConstantKey]) ∧
    ((hbCreativeLoadMethodConstantKey, hbCreativeLoadMethodHTML).2 =
        roundedCpm sampleTruncatedBid.price (effGranularity []) ∨
      (hbCreativeLoadMethodConstantKey, hbCreativeLoadMethodHTML).2 =
        sampleTruncatedBid.bidderCode ∨
      (hbCreativeLoadMethodConstantKey, hbCreativeLoadMethodHTML).2 =
        sampleTruncatedBid.cacheId ∨
      (hbCreativeLoadMethodConstantKey, hbCreativeLoadMethodHTML).2 =
        sizeStringOf sampleTruncatedBid ∨
      (hbCreativeLoadMethodConstantKey, hbCreativeLoadMethodHTML).2 =
        hbCreativeLoadMethodDemandSDK ∨
      (hbCreativeLoadMethodConstantKey, hbCreativeLoadMethodHTML).2 =
        hbCreativeLoadMethodHTML) :=
  sortBidsAddKeywordsMobile_keyLength [sampleBidMatched] sampleReq3 []
    (by decide) (by decide) sampleTruncatedBid (by decide)
    (hbCreativeLoadMethodConstantKey, hbCreativeLoadMethodHTML) (by decide)

/--
Claim C8 — unknown account.  When the account id of a parsed auction
request does not resolve in the account cache, the handler answers a body
whose status is exactly `"Unknown account id: Unknown account"`, dispatches
no bidder, produces no bid list, and marks the error meter once.
-/
theorem auction_unknownAccount (ex : List (Str × Adapter))
    (accounts : Str → Except Str Account)
    (put : List BidCache → Except Str (List Str)) (req : PBSRequest)
    (cookie : PBSCookie) (e : Str) (hacc : accounts req.accountId = .error e) :
    auctionCore ex accounts put req cookie =
      { response := { status := "Unknown account id: Unknown account".toList,
                      tid := [], bidderStatus := [], bids := [] },
        errorMeterDelta := 1, sentBids := 0 } := by
  unfold auctionCore
  rw [hacc]

/-- Witness for claim C8: a request against an empty account cache. -/
theorem auction_unknownAccount_witness :
    auctionCore sampleExchanges sampleAccountsEmpty samplePut sampleAuctionReq
        sampleCookie =
      { response := { status := "Unknown account id: Unknown account".toList,
                      tid := [], bidderStatus := [], bids := [] },
        errorMeterDelta := 1, sentBids := 0 } :=
  auction_unknownAccount sampleExchanges sampleAccountsEmpty samplePut
    sampleAuctionReq sampleCookie "Not found".toList rfl

theorem processBidder_bidderCode (ex : List (Str × Adapter)) (app : Bool)
    (cookie : PBSCookie) (b : PBSBidder) :
    (processBidder ex app cookie b).bidder.bidderCode = b.bidderCode := by
  unfold processBidder
  cases hm : mapGet ex b.bidderCode with
  | none => rfl
  | some ad =>
    dsimp only
    split_ifs <;> first | rfl | (split <;> rfl)

theorem processBidder_unsupported {ex : List (Str × Adapter)} {app : Bool}
    {cookie : PBSCookie} {b : PBSBidder} (hm : mapGet ex b.bidderCode = none) :
    processBidder ex app cookie b =
      { bidder := { b with error := "Unsupported bidder".toList },
        dispatched := false, bidList := none } := by
  unfold processBidder
  rw [hm]

theorem processBidder_noCookie {ex : List (Str × Adapter)} {app : Bool}
    {cookie : PBSCookie} {b : PBSBidder} {ad : Adapter}
    (hm : mapGet ex b.bidderCode = some ad) (happ : app = false)
    (huid : cookie.getUID ad.familyName = []) :
    (processBidder ex app cookie b).bidder.noCookie = true ∧
    (processBidder ex app cookie b).bidder.usersyncInfo = some ad.usersyncInfo ∧
    (ad.skipNoCookies = true → (processBidder ex app cookie b).dispatched = false) := by
  subst happ
  unfold processBidder
  rw [hm]
  dsimp only
  have hnu : false = false ∧ cookie.getUID ad.familyName = [] := ⟨rfl, huid⟩
  rw [if_pos hnu]
  by_cases hskip : ad.skipNoCookies
  · rw [if_pos ⟨hnu, hskip⟩]
    exact ⟨rfl, rfl, fun _ => rfl⟩
  · rw [if_neg (fun hc => hskip hc.2)]
    refine ⟨?_, ?_, fun hsk => absurd hsk hskip⟩ <;> (split <;> rfl)

theorem processBidder_call_error {ex : List (Str × Adapter)} {app : Bool}
    {cookie : PBSCookie} {b : PBSBidder} {ad : Adapter}
    (hm : mapGet ex b.bidderCode = some ad)
    (hdisp : (processBidder ex app cookie b).dispatched = true) :
    (ad.call = .error .deadlineExceeded →
      (processBidder ex app cookie b).bidder.error = "Timed out".toList) ∧
    (∀ e, ad.call = .error e → e ≠ .deadlineExceeded →
      (processBidder ex app cookie b).bidder.error = e.errorMessage) := by
  unfold processBidder at hdisp ⊢
  rw [hm] at hdisp ⊢
  dsimp only at hdisp ⊢
  by_cases hskip : (app = false ∧ cookie.getUID ad.familyName = []) ∧ ad.skipNoCookies
  · rw [if_pos hskip] at hdisp
    exact absurd hdisp (by simp)
  · rw [if_neg hskip] at hdisp ⊢
    constructor
    · intro hcall
      rw [hcall]
    · intro e hcall hne
      rw [hcall]
      cases e with
      | deadlineExceeded => exact absurd rfl hne
      | canceled => rfl
      | other msg => rfl

/--
Claim C6 — one `BidderStatus` per `BidderRequest`.  Whenever the auction
reaches the normal response (account resolved, no cache failure — the error
meter was not marked), the response's bidder-status list is exactly the
input bidder list, in input order, each entry processed by the fan-out
logic: the bidder code is preserved; an unsupported code is marked
`"Unsupported bidder"` and never dispatched; with no app context and no uid
the bidder is marked `noCookie` with the adapter's usersync info and, when
the adapter skips no-cookie requests, not dispatched; a dispatched call
that timed out is marked `"Timed out"`, and any other call error is
recorded as the error's message.
-/
theorem auction_bidderStatus (ex : List (Str × Adapter))
    (accounts : Str → Except Str Account)
    (put : List BidCache → Except Str (List Str)) (req : PBSRequest)
    (cookie : PBSCookie) (account : Account)
    (hacc : accounts req.accountId = .ok account)
    (hok : (auctionCore ex accounts put req cookie).errorMeterDelta = 0) :
    (auctionCore ex accounts put req cookie).response.bidderStatus =
      req.bidders.map (fun b => (processBidder ex req.app cookie b).bidder) ∧
    (auctionCore ex accounts put req cookie).response.bidderStatus.length =
      req.bidders.length ∧
    ∀ b ∈ req.bidders,
      ((processBidder ex req.app cookie b).bidder.bidderCode = b.bidderCode) ∧
      (mapGet ex b.bidderCode = none →
        (processBidder ex req.app cookie b).bidder.error = "Unsupported bidder".toList ∧
        (processBidder ex req.app cookie b).dispatched = false) ∧
      (∀ ad, mapGet ex b.bidderCode = some ad → req.app = false →
        cookie.getUID ad.familyName = [] →
          (processBidder ex req.app cookie b).bidder.noCookie = true ∧
          (processBidder ex req.app cookie b).bidder.usersyncInfo = some ad.usersyncInfo ∧
          (ad.skipNoCookies = true →
            (processBidder ex req.app cookie b).dispatched = false)) ∧
      (∀ ad, mapGet ex b.bidderCode = some ad →
        (processBidder ex req.app cookie b).dispatched = true →
          (ad.call = .error .deadlineExceeded →
            (processBidder ex req.app cookie b).bidder.error = "Timed out".toList) ∧
          (∀ e, ad.call = .error e → e ≠ .deadlineExceeded →
            (processBidder ex req.app cookie b).bidder.error = e.errorMessage)) := by
  have hstatus : (auctionCore ex accounts put req cookie).response.bidderStatus =
      req.bidders.map (fun b => (processBidder ex req.app cookie b).bidder) := by
    unfold auctionCore at hok ⊢
    rw [hacc] at hok ⊢
    dsimp only at hok ⊢
    cases hc : (if req.cacheMarkup = 1 then
        runCacheMarkup put (aggregateBids (req.bidders.map (processBidder ex req.app cookie)))
      else .ok (aggregateBids (req.bidders.map (processBidder ex req.app cookie))) :
        Except Str (List PBSBid)) with
    | error s => rw [hc] at hok; exact absurd hok (by simp)
    | ok bids1 => simp [List.map_map]
  refine ⟨hstatus, by rw [hstatus]; simp, ?_⟩
  intro b _
  refine ⟨processBidder_bidderCode ex req.app cookie b, ?_, ?_, ?_⟩
  · intro hm
    rw [processBidder_unsupported hm]
    exact ⟨rfl, rfl⟩
  · intro ad hm happ huid
    exact processBidder_noCookie hm happ huid
  · intro ad hm hdisp
    exact processBidder_call_error hm hdisp

/-- Witness for claim C6 at the sample auction: three bidders — an
unsupported one, a successful one, and one skipped for lacking a cookie. -/
theorem auction_bidderStatus_witness :
    (auctionCore sampleExchanges sampleAccounts samplePut sampleAuctionReq
        sampleCookie).response.bidderStatus =
      sampleAuctionReq.bidders.map
        (fun b => (processBidder sampleExchanges sampleAuctionReq.app sampleCookie b).bidder) ∧
    ((processBidder sampleExchanges sampleAuctionReq.app sampleCookie
        { bidderCode := "nosuch".toList, adUnits := [sampleUnit], responseTime := 0,
          numBids := 0, noCookie := false, noBid := false, error := [],
          usersyncInfo := none }).bidder.error = "Unsupported bidder".toList ∧
      (processBidder sampleExchanges sampleAuctionReq.app sampleCookie
        { bidderCode := "nosuch".toList, adUnits := [sampleUnit], responseTime := 0,
          numBids := 0, noCookie := false, noBid := false, error := [],
          usersyncInfo := none }).dispatched = false) :=
  ⟨(auction_bidderStatus sampleExchanges sampleAccounts samplePut sampleAuctionReq
      sampleCookie { accountId := "acct".toList, priceGranularity := [] } rfl
      (by decide)).1,
   ((auction_bidderStatus sampleExchanges sampleAccounts samplePut sampleAuctionReq
      sampleCookie { accountId := "acct".toList, priceGranularity := [] } rfl
      (by decide)).2.2
      { bidderCode := "nosuch".toList, adUnits := [sampleUnit], responseTime := 0,
        numBids := 0, noCookie := false, noBid := false, error := [],
        usersyncInfo := none } (by decide)).2.1 (by decide)⟩

theorem sortBids_preserves (bids : List PBSBid) (req : PBSRequest) (pg : Str)
    (p : Nat) (b : PBSBid) (hb : bids[p]? = some b) :
    ∃ t, (sortBidsAddKeywordsMobile bids req pg)[p]? =
      some { b with adServerTargeting := t } := by
  have hout := sortBids_getElem? bids req pg p b hb
  by_cases hc : b.adUnitCode ∈ unitCodes req
  · rw [if_pos hc] at hout
    cases hfind : (sortedGroup bids b.adUnitCode).enum.find? (fun ie => ie.2.1 == p) with
    | none =>
      rw [hfind] at hout
      exact ⟨b.adServerTargeting, hout⟩
    | some ie =>
      rw [hfind] at hout
      dsimp only at hout
      have hp : ie.2.1 = p := by simpa using List.find?_some hfind
      have hiemem : ie.2 ∈ sortedGroup bids b.adUnitCode := by
        obtain ⟨i, q, b2⟩ := ie
        exact List.getElem?_mem
          (List.mk_mem_enum_iff_getElem?.mp (List.mem_of_find?_eq_some hfind))
      have hmem2 := mem_sortedGroup.mp hiemem
      rw [hp] at hmem2
      have hbb : ie.2.2 = b := by
        have := hmem2.1.symm.trans hb
        exact Option.some.inj this
      rw [hbb] at hout
      exact ⟨_, hout⟩
  · rw [if_neg hc] at hout
    exact ⟨b.adServerTargeting, hout⟩

theorem sortBids_length (bids : List PBSBid) (req : PBSRequest) (pg : Str) :
    (sortBidsAddKeywordsMobile bids req pg).length = bids.length := by
  simp [sortBidsAddKeywordsMobile]

theorem applyCacheIds_getElem? {bids : List PBSBid} {uuids : List Str} {i : Nat}
    {b : PBSBid} {u : Str} (hb : bids[i]? = some b) (hu : uuids[i]? = some u) :
    (applyCacheIds bids uuids)[i]? =
      some { b with cacheId := u, nurl := [], adm := [] } := by
  unfold applyCacheIds
  rw [List.getElem?_zipWith, hb, hu]

theorem applyCacheIds_length {bids : List PBSBid} {uuids : List Str}
    (h : uuids.length = bids.length) :
    (applyCacheIds bids uuids).length = bids.length := by
  simp [applyCacheIds, h]

/--
Claim C5 — cache markup.  With the account resolved and `cacheMarkup = 1`:
the creative cache is called on one cache object per aggregated bid, in
bid-list order, carrying that bid's adm, nurl, width and height; if the
call fails, the handler answers a body whose status is
`"Prebid cache failed: <err>"` with no bidder status and no bid list, and
marks the error meter; if it succeeds with one uuid per object, the bid at
every position of the response carries that position's uuid as `cacheId`
and empty `adm` and `nurl` (the targeting pass, when enabled, touches only
`adServerTargeting`).
-/
theorem auction_cacheMarkup (ex : List (Str × Adapter))
    (accounts : Str → Except Str Account)
    (put : List BidCache → Except Str (List Str)) (req : PBSRequest)
    (cookie : PBSCookie) (account : Account)
    (hacc : accounts req.accountId = .ok account) (hcm : req.cacheMarkup = 1) :
    (∀ i : Nat, (buildCacheObjects (aggregateBids (req.bidders.map (processBidder ex req.app cookie))))[i]? =
      (aggregateBids (req.bidders.map (processBidder ex req.app cookie)))[i]?.map
        (fun (b : PBSBid) => ({ adm := b.adm, nurl := b.nurl, width := b.width, height := b.height } : BidCache))) ∧
    (∀ e, put (buildCacheObjects (aggregateBids (req.bidders.map (processBidder ex req.app cookie)))) = .error e →
      auctionCore ex accounts put req cookie =
        { response := { status := "Prebid cache failed: ".toList ++ e, tid := [],
                        bidderStatus := [], bids := [] },
          errorMeterDelta := 1,
          sentBids := ((req.bidders.map (processBidder ex req.app cookie)).filter
            (fun o => o.dispatched)).length }) ∧
    (∀ uuids, put (buildCacheObjects (aggregateBids (req.bidders.map (processBidder ex req.app cookie)))) = .ok uuids →
      uuids.length = (aggregateBids (req.bidders.map (processBidder ex req.app cookie))).length →
        (auctionCore ex accounts put req cookie).response.bids.length =
          (aggregateBids (req.bidders.map (processBidder ex req.app cookie))).length ∧
        ∀ (i : Nat) (b : PBSBid) (u : Str),
          (aggregateBids (req.bidders.map (processBidder ex req.app cookie)))[i]? = some b →
          uuids[i]? = some u →
          ∃ t, (auctionCore ex accounts put req cookie).response.bids[i]? =
            some { b with adm := [], nurl := [], cacheId := u, adServerTargeting := t }) := by
  refine ⟨?_, ?_, ?_⟩
  · intro i
    unfold buildCacheObjects
    rw [List.getElem?_map]
  · intro e hput
    unfold auctionCore
    rw [hacc]
    dsimp only
    rw [if_pos hcm]
    unfold runCacheMarkup
    rw [hput]
  · intro uuids hput hlen
    unfold auctionCore
    rw [hacc]
    dsimp only
    rw [if_pos hcm]
    unfold runCacheMarkup
    rw [hput]
    dsimp only
    constructor
    · by_cases hs : req.sortBids = 1 <;>
        simp [hs, sortBids_length, applyCacheIds_length hlen]
    · intro i b u hbi hui
      have happly := applyCacheIds_getElem? hbi hui
      by_cases hs : req.sortBids = 1
      · rw [if_pos hs]
        obtain ⟨t, ht⟩ := sortBids_preserves _ req account.priceGranularity i _ happly
        exact ⟨t, ht⟩
      · rw [if_neg hs]
        exact ⟨b.adServerTargeting, happly⟩

/-- Witness for claim C5: the sample auction with `cacheMarkup = 1` leaves
its one bid carrying the cache uuid and empty adm and nurl. -/
theorem auction_cacheMarkup_witness :
    ∃ t, (auctionCore sampleExchanges sampleAccounts samplePut sampleAuctionReq
        sampleCookie).response.bids[0]? =
      some ({ sampleBidMatched with
              responseTime := 7
              adm := []
              nurl := []
              cacheId := "uuid-1".toList
              adServerTargeting := t }) :=
  ((auction_cacheMarkup sampleExchanges sampleAccounts samplePut sampleAuctionReq
      sampleCookie { accountId := "acct".toList, priceGranularity := [] } rfl
      rfl).2.2 ["uuid-1".toList] (by decide) (by decide)).2
    0 { sampleBidMatched with responseTime := 7 } "uuid-1".toList
    (by decide) (by decide)

theorem cookieSync_foldl_filterMap (ex : List (Str × Adapter)) (cookie : PBSCookie) :
    ∀ (l : List Str) (acc : List PBSBidder),
      (l.foldl (fun acc bidder =>
        match mapGet ex bidder with
        | some e =>
          if cookie.hasLiveSync e.familyName then acc
          else acc ++ [cookieSyncBidder bidder e]
        | none => acc) acc) =
      acc ++ l.filterMap (fun bc =>
        match mapGet ex bc with
        | some e =>
          if cookie.hasLiveSync e.familyName then none
          else some (cookieSyncBidder bc e)
        | none => none) := by
  intro l
  induction l with
  | nil => intro acc; simp
  | cons bc rest ih =>
    intro acc
    simp only [List.foldl_cons, List.filterMap_cons]
    cases hm : mapGet ex bc with
    | none => rw [ih]
    | some e => cases hs : cookie.hasLiveSync e.familyName <;> simp [hs, ih]

/--
Claim C7 — cookie-sync response.  The response echoes the request uuid; its
status is `"no_cookie"` exactly when the inbound cookie holds zero live
syncs and `"ok"` exactly otherwise; and the bidder-status list is, in
request order, exactly the requested codes that are registered in the
adapter registry and lack a live sync for the adapter's family — each as a
record with that code, `noCookie = true` and the adapter's usersync info.
Already-synced and unregistered bidders are omitted.
-/
theorem cookieSync_response (ex : List (Str × Adapter)) (cookie : PBSCookie)
    (csReq : CookieSyncRequest) :
    (cookieSyncCore ex cookie csReq).uuid = csReq.uuid ∧
    ((cookieSyncCore ex cookie csReq).status = "no_cookie".toList ↔
      cookie.liveSyncCount = 0) ∧
    ((cookieSyncCore ex cookie csReq).status = "ok".toList ↔
      cookie.liveSyncCount ≠ 0) ∧
    ((cookieSyncCore ex cookie csReq).bidderStatus = csReq.bidders.filterMap (fun bc =>
      match mapGet ex bc with
      | some e =>
        if cookie.hasLiveSync e.familyName then none
        else some (cookieSyncBidder bc e)
      | none => none)) ∧
    (∀ st ∈ (cookieSyncCore ex cookie csReq).bidderStatus,
      st.noCookie = true ∧ ∃ e, mapGet ex st.bidderCode = some e ∧
        cookie.hasLiveSync e.familyName = false ∧
        st.usersyncInfo = some e.usersyncInfo) := by
  have hbs : (cookieSyncCore ex cookie csReq).bidderStatus =
      csReq.bidders.filterMap (fun bc =>
        match mapGet ex bc with
        | some e =>
          if cookie.hasLiveSync e.familyName then none
          else some (cookieSyncBidder bc e)
        | none => none) := by
    unfold cookieSyncCore
    dsimp only
    rw [cookieSync_foldl_filterMap]
    simp
  refine ⟨rfl, ?_, ?_, hbs, ?_⟩
  · unfold cookieSyncCore
    by_cases h : cookie.liveSyncCount = 0 <;> simp [h]
  · unfold cookieSyncCore
    by_cases h : cookie.liveSyncCount = 0 <;> simp [h]
  · intro st hst
    rw [hbs] at hst
    obtain ⟨bc, hbc, hmap⟩ := List.mem_filterMap.mp hst
    cases hm : mapGet ex bc with
    | none => rw [hm] at hmap; cases hmap
    | some e =>
      rw [hm] at hmap
      dsimp only at hmap
      cases hs : cookie.hasLiveSync e.familyName
      · rw [hs] at hmap
        simp only [Bool.false_eq_true, if_false, Option.some.injEq] at hmap
        subst hmap
        exact ⟨rfl, e, by simpa [cookieSyncBidder] using hm, hs, rfl⟩
      · rw [hs] at hmap
        simp at hmap

/--
Claim C10 — opt-out precedes body parsing.  For every request whose inbound
cookie disallows syncs, the cookie-sync handler answers
401 `"User has opted out"` whatever the body decoding outcome is — the body
is never consulted; and the 400 `"JSON parse failed"` answer is reachable
only for users who have not opted out, on a body that failed to decode.
-/
theorem cookieSync_optOut_first (ex : List (Str × Adapter)) (cookie : PBSCookie)
    (body : Except Str CookieSyncRequest) :
    (cookie.allowSyncs = false →
      cookieSyncHandler ex cookie body =
        .unauthorized "User has opted out".toList) ∧
    (∀ s, cookieSyncHandler ex cookie body = .badRequest s →
      cookie.allowSyncs = true ∧ s = "JSON parse failed".toList ∧
        ∃ e, body = .error e) := by
  constructor
  · intro hopt
    unfold cookieSyncHandler
    rw [if_pos hopt]
  · intro s hbad
    unfold cookieSyncHandler at hbad
    by_cases hopt : cookie.allowSyncs = false
    · rw [if_pos hopt] at hbad
      cases hbad
    · rw [if_neg hopt] at hbad
      refine ⟨by revert hopt; cases cookie.allowSyncs <;> simp, ?_⟩
      cases body with
      | error e => exact ⟨(CookieSyncHttpResult.badRequest.inj hbad).symm, e, rfl⟩
      | ok csReq => cases hbad

/-- Witness for claim C10: an opted-out cookie wins over a malformed body. -/
theorem cookieSync_optOut_first_witness :
    cookieSyncHandler sampleExchanges sampleOptOutCookie
        (Except.error "bad json".toList) =
      CookieSyncHttpResult.unauthorized "User has opted out".toList :=
  (cookieSync_optOut_first sampleExchanges sampleOptOutCookie
    (Except.error "bad json".toList)).1 rfl

end Pbs
